import Mathlib

/-!
Shallow embedding of the search-and-waterfall compression engine of
`src/compression.rs` (crnch). External codecs (oxipng, pngquant, magick,
jpegoptim, ghostscript) are black boxes: an environment record supplies, for each
invocation the code can make, its exit status and the size in KB of the file
it produced. File sizes, search bounds and knob values are `Nat`; all Rust
integer arithmetic involved stays in ranges where no wrap or underflow occurs
(loop lower bounds start at 1 or more and never decrease, so `mid - 1` in the
source never underflows its machine type on any reachable state; truncating
division by 2 of nonnegative values agrees with `Nat` division).
-/

namespace Crnch

/-- Exit of one probe invocation as the binary-search loops observe it:
`ok` models `status.success()` of the spawned tool, `size` models
`get_file_size_kb` of the probe output (read by the loops only when
`ok` is true). -/
structure ProbeOut where
  ok : Bool
  size : Nat
deriving Repr, DecidableEq

/-- Bounds and current best candidate of one bounded binary-search loop of
`compression.rs`. `best` is `some (knob, size)` once a probe met the target,
mirroring `best_candidate` / `best_scale` / `(found_valid, best_dpi, best_size)`.
The `attempts < max_iterations` counter of the source is the fuel argument of
`searchRun`. -/
structure SState where
  lo : Nat
  hi : Nat
  best : Option (Nat × Nat)
deriving Repr, DecidableEq

/-- One recorded probe invocation: the knob arguments handed to the codec
(for the pngquant loop, `qlo-qhi` is the `--quality mid-max` range of
compression.rs line 408; the other loops use only `qlo`), its exit status
and the measured output size. -/
structure Call where
  qlo : Nat
  qhi : Nat
  ok : Bool
  size : Nat
deriving Repr, DecidableEq

/-- One iteration body shared by the four binary-search loops of
`compression.rs`. On a successful probe meeting the target the loop records
the candidate and moves `lo` to `mid+1`; on a successful probe missing the
target it moves `hi` to `mid-1`. On a failed invocation the PNG quality loop
(lines 412-415) shrinks `hi` to `mid-1` (`failShrink = true`), while the PNG
resize loop (line 623), the shared JPEG fallback resize loop (line 907) and
the PDF DPI loop (line 822) guard the whole body with `status.success()` and
so leave the bounds unchanged (`failShrink = false`). -/
def searchStep (failShrink : Bool) (probe : Nat → Nat → ProbeOut) (target : Nat)
    (s : SState) : SState :=
  let mid := (s.lo + s.hi) / 2
  let r := probe mid s.hi
  if r.ok then
    if r.size ≤ target then ⟨mid + 1, s.hi, some (mid, r.size)⟩
    else ⟨s.lo, mid - 1, s.best⟩
  else if failShrink then ⟨s.lo, mid - 1, s.best⟩
  else s

/-- The bounded search loop `while lo <= hi && attempts < max` of
`compression.rs`, with `fuel = max - attempts`. Returns the final state and
the list of probe invocations made, in order. -/
def searchRun (failShrink : Bool) (probe : Nat → Nat → ProbeOut) (target : Nat) :
    Nat → SState → SState × List Call
  | 0, s => (s, [])
  | fuel + 1, s =>
    if s.lo ≤ s.hi then
      let mid := (s.lo + s.hi) / 2
      let r := probe mid s.hi
      let rest := searchRun failShrink probe target fuel (searchStep failShrink probe target s)
      (rest.1, ⟨mid, s.hi, r.ok, r.size⟩ :: rest.2)
    else (s, [])

/-- PNG color-quantization binary search, compression.rs lines 397-431:
quality range `[30,100]`, at most 8 probes, probe = pngquant at
`--quality mid-max`, failed invocation shrinks `hi` to `mid-1`. -/
def pngQuantSearch (probe : Nat → Nat → ProbeOut) (target : Nat) : SState × List Call :=
  searchRun true probe target 8 ⟨30, 100, none⟩

/-- PNG resize binary search, compression.rs lines 609-636: scale range
`[1,100]`, at most 8 probes, failed invocation leaves the bounds unchanged. -/
def pngResizeSearch (probe : Nat → ProbeOut) (target : Nat) : SState × List Call :=
  searchRun false (fun mid _ => probe mid) target 8 ⟨1, 100, none⟩

/-- Shared JPEG fallback resize binary search, compression.rs lines 893-920:
scale range `[1,99]`, at most 8 probes, failed invocation leaves the bounds
unchanged. -/
def jpgFallbackScaleSearch (probe : Nat → ProbeOut) (target : Nat) : SState × List Call :=
  searchRun false (fun mid _ => probe mid) target 8 ⟨1, 99, none⟩

/-- PDF DPI binary search, compression.rs lines 809-840: adaptive range
`[lo,hi]`, at most 14 probes, failed ghostscript invocation leaves the
bounds unchanged (the loop body is guarded by `run_gs(..).is_ok()`). -/
def pdfDpiSearch (probe : Nat → ProbeOut) (target : Nat) (lo hi : Nat) : SState × List Call :=
  searchRun false (fun mid _ => probe mid) target 14 ⟨lo, hi, none⟩

/-- Result of spawning one external command where the engines distinguish a
spawn error (`.status()?` propagates an `Err` out of the whole engine) from a
clean spawn with an exit status (`status.success()`). -/
inductive Invoke where
  | spawnErr
  | exit (success : Bool)
deriving Repr, DecidableEq

/-- Outcome of one engine call: `ok` carries the algorithm string of the
returned `CompResult`, `err` the message of the `anyhow` error. Spawn errors
propagated by `?` are modelled as `err "spawn error"`. -/
inductive RunResult where
  | ok (algorithm : String)
  | err (msg : String)
deriving Repr, DecidableEq

/-! ## PDF engine (compress_pdf, compression.rs lines 678-860) -/

/-- One `run_gs` invocation: with a `-dPDFSETTINGS` preset, or with explicit
image-resolution DPI arguments (compression.rs lines 934-953). -/
inductive GsCall where
  | preset (name : String)
  | dpi (d : Nat)
deriving Repr, DecidableEq

/-- What ends up at the PDF output path. -/
inductive PdfArtifact where
  | originalCopy
  | screenFloor
  | atDpi (d : Nat)
  | fallbackScreen
  | presetOut (name : String)
deriving Repr, DecidableEq

/-- Environment for one `compress_pdf` call: input size, the result of each
ghostscript invocation the code can make, and the answers an interactive user
would give at each `Confirm` prompt. `autoYes` is the `--yes` flag. -/
structure PdfEnv where
  originalSize : Nat
  presetOk : Bool
  screenOk : Bool
  screenSize : Nat
  gsDpiOk : Nat → Bool
  gsDpiSize : Nat → Nat
  fallbackOk : Bool
  autoYes : Bool
  ansKeepOriginal : Bool
  ansSaveFloor : Bool

/-- Adaptive initial DPI range from the compression ratio, compression.rs
lines 788-794. The source compares `original as f64 / target as f64` against
10.0, 3.0 and 2.0; for sizes below 2^52 KB the floating comparison agrees with
the exact integer comparison used here. -/
def pdfDpiRange (originalSize target : Nat) : Nat × Nat :=
  if 10 * target < originalSize then (50, 150)
  else if 3 * target < originalSize then (72, 250)
  else if 2 * target < originalSize then (100, 400)
  else (150, 600)

/-- Result of the PDF DPI loop: `found/bestDpi/bestSize` mirror
`found_valid/best_dpi/best_size`; `written` is the DPI whose artifact was last
copied onto the output path (the loop copies on every hit, line 831);
`calls` the ghostscript invocations made. -/
structure PdfLoopOut where
  found : Bool
  bestDpi : Nat
  bestSize : Nat
  written : Option Nat
  calls : List GsCall
deriving Repr, DecidableEq

/-- The DPI binary-search loop of compress_pdf, lines 815-840. A failed
`run_gs` leaves bounds and best unchanged and only consumes one attempt. -/
def pdfDpiLoop (env : PdfEnv) (target : Nat) :
    Nat → Nat → Nat → Bool → Nat → Nat → Option Nat → PdfLoopOut
  | _, _, 0, found, bd, bs, w => ⟨found, bd, bs, w, []⟩
  | lo, hi, fuel + 1, found, bd, bs, w =>
    if lo ≤ hi then
      let mid := (lo + hi) / 2
      if env.gsDpiOk mid then
        let size := env.gsDpiSize mid
        if size ≤ target then
          let rest := pdfDpiLoop env target (mid + 1) hi fuel true mid size (some mid)
          ⟨rest.found, rest.bestDpi, rest.bestSize, rest.written, GsCall.dpi mid :: rest.calls⟩
        else
          let rest := pdfDpiLoop env target lo (mid - 1) fuel found bd bs w
          ⟨rest.found, rest.bestDpi, rest.bestSize, rest.written, GsCall.dpi mid :: rest.calls⟩
      else
        let rest := pdfDpiLoop env target lo hi fuel found bd bs w
        ⟨rest.found, rest.bestDpi, rest.bestSize, rest.written, GsCall.dpi mid :: rest.calls⟩
    else ⟨found, bd, bs, w, []⟩

/-- Observable outcome of one `compress_pdf` call: result, what was written
to the output path (`none` when nothing was), the ghostscript invocations in
order, and the interactive prompts actually shown (auto-yes paths show none). -/
structure PdfRun where
  result : RunResult
  output : Option PdfArtifact
  calls : List GsCall
  prompts : List String
deriving Repr, DecidableEq

/-- compress_pdf, compression.rs lines 678-860. No target: one preset render
chosen by size bracket. Target given: keep-original short circuit (lines
683-698), floor detection with `/screen` (744-785), adaptive-range DPI binary
search (787-840), `/screen` fallback when no DPI hit (857). -/
def compress_pdf (env : PdfEnv) (targetKb : Option Nat) : PdfRun :=
  match targetKb with
  | none =>
    let preset := if 50000 < env.originalSize then "/ebook"
      else if 10000 < env.originalSize then "/ebook"
      else if 1000 < env.originalSize then "/printer"
      else "/printer"
    if env.presetOk then
      ⟨.ok ("Smart Compression (" ++ preset ++ ")"), some (.presetOut preset),
        [.preset preset], []⟩
    else ⟨.err "Ghostscript failed.", none, [.preset preset], []⟩
  | some target =>
    if env.originalSize ≤ target then
      let keep := env.autoYes || env.ansKeepOriginal
      let ps := if env.autoYes then ([] : List String) else ["Keep original file?"]
      if keep then
        ⟨.ok "No compression (requested size >= original)", some .originalCopy, [], ps⟩
      else ⟨.err "Compression cancelled by user.", none, [], ps⟩
    else
      let floorSize := if env.screenOk then env.screenSize else 0
      if env.screenOk = true ∧ target < floorSize then
        let save := env.autoYes || env.ansSaveFloor
        let ps := if env.autoYes then ([] : List String)
          else ["   Save the smallest possible version?"]
        if save then ⟨.ok "Floor (Min Quality)", some .screenFloor, [.preset "/screen"], ps⟩
        else ⟨.err "Compression cancelled.", none, [.preset "/screen"], ps⟩
      else
        let r := pdfDpiRange env.originalSize target
        let L := pdfDpiLoop env target r.1 r.2 14 false 0 0 none
        if L.found then
          ⟨.ok ("Binary Search (" ++ toString L.bestDpi ++ " DPI)"),
            L.written.map PdfArtifact.atDpi, GsCall.preset "/screen" :: L.calls, []⟩
        else if env.fallbackOk then
          ⟨.ok "Fallback /screen", some .fallbackScreen,
            GsCall.preset "/screen" :: L.calls ++ [.preset "/screen"], []⟩
        else
          ⟨.err "Ghostscript failed.", none,
            GsCall.preset "/screen" :: L.calls ++ [.preset "/screen"], []⟩

/-! ## PNG engine (compress_png, compression.rs lines 304-675) -/

/-- The four temp files the PNG waterfall can create, as an existence/content
record: `oxi` for `*.oxipng.tmp.png`, `pq` for `*.pngquant.tmp.png` (content =
quality range of the last successful pngquant write), `gray` for
`*.gray.tmp.png`, `rsz` for `*.resize.tmp.png` (content = scale of the last
successful resize write). A field is `false`/`none` when the file does not
exist. A tool invocation that exits unsuccessfully is taken not to have
written its output file; `fs::copy` of a missing file fails and propagates;
`fs::remove_file(..).ok()` of a missing file is a no-op. -/
structure PngFS where
  oxi : Bool
  pq : Option (Nat × Nat)
  gray : Bool
  rsz : Option Nat
deriving Repr, DecidableEq

/-- What ends up at the PNG output path (every final output is an `fs::copy`
of one of the temp artifacts, possibly polished in place afterwards). -/
inductive PngArtifact where
  | originalCopy
  | oxiCopy
  | pqCopy (qlo qhi : Nat)
  | grayCopy
  | resizeCopy (scale : Nat)
deriving Repr, DecidableEq

/-- Environment for one `compress_png` call: input size, results of every
codec invocation the waterfall can make (pngquant indexed by the quality
range passed, magick resize indexed by base image and scale), and the answers
an interactive user would give at each `Confirm` prompt. -/
structure PngEnv where
  originalSize : Nat
  oxiRes : Invoke
  oxiSize : Nat
  pngquantRes : Nat → Nat → Invoke
  pngquantSize : Nat → Nat → Nat
  grayRes : Invoke
  graySize : Nat
  resizeRes : Bool → Nat → Invoke
  resizeSize : Bool → Nat → Nat
  autoYes : Bool
  ansKeepOriginal : Bool
  ansGrayAccept : Bool
  ansUseGrayForResize : Bool
  ansResizeColor : Bool
  ansResize : Bool
  ansSaveSmallest : Bool

/-- Result of the PNG quantization loop: abort on a spawn error (the `?` on
`status()` at line 410 propagates), else the final `best_candidate` and the
content of `pq_out`. -/
inductive QuantOut where
  | abort (pq : Option (Nat × Nat))
  | done (best : Option (Nat × Nat)) (pq : Option (Nat × Nat))
deriving Repr, DecidableEq

/-- PNG color-quantization loop, compression.rs lines 397-431, threading the
content of `pq_out`: every cleanly exiting pngquant (hit or miss) rewrites
`pq_out`; a nonzero exit shrinks `hi` to `mid-1` without writing. -/
def pngQuantEngineLoop (env : PngEnv) (target : Nat) :
    Nat → Nat → Nat → Option (Nat × Nat) → Option (Nat × Nat) → QuantOut
  | _, _, 0, best, pq => .done best pq
  | lo, hi, fuel + 1, best, pq =>
    if lo ≤ hi then
      let mid := (lo + hi) / 2
      match env.pngquantRes mid hi with
      | .spawnErr => .abort pq
      | .exit false => pngQuantEngineLoop env target lo (mid - 1) fuel best pq
      | .exit true =>
        let size := env.pngquantSize mid hi
        if size ≤ target then
          pngQuantEngineLoop env target (mid + 1) hi fuel (some (mid, size)) (some (mid, hi))
        else
          pngQuantEngineLoop env target lo (mid - 1) fuel best (some (mid, hi))
    else .done best pq

/-- Result of the PNG resize loop: abort on spawn error (line 621), else the
final `best_scale` and the content of `resize_out`. -/
inductive ResizeOut where
  | abort (rsz : Option Nat)
  | done (best : Option (Nat × Nat)) (rsz : Option Nat)
deriving Repr, DecidableEq

/-- PNG resize loop, compression.rs lines 609-636, threading the content of
`resize_out`. `baseGray` records whether `resize_input` is the grayscale or
the color-stripped temp. A failed invocation leaves bounds, best and
`resize_out` unchanged and only consumes one attempt. -/
def pngResizeEngineLoop (env : PngEnv) (baseGray : Bool) (target : Nat) :
    Nat → Nat → Nat → Option (Nat × Nat) → Option Nat → ResizeOut
  | _, _, 0, best, rsz => .done best rsz
  | lo, hi, fuel + 1, best, rsz =>
    if lo ≤ hi then
      let mid := (lo + hi) / 2
      match env.resizeRes baseGray mid with
      | .spawnErr => .abort rsz
      | .exit false => pngResizeEngineLoop env baseGray target lo hi fuel best rsz
      | .exit true =>
        let size := env.resizeSize baseGray mid
        if size ≤ target then
          pngResizeEngineLoop env baseGray target (mid + 1) hi fuel (some (mid, size)) (some mid)
        else
          pngResizeEngineLoop env baseGray target lo (mid - 1) fuel best (some mid)
    else .done best rsz

/-- Observable outcome of one `compress_png` call: result, what was written to
the output path, the interactive prompts shown, and which temp files still
exist at return. -/
structure PngRun where
  result : RunResult
  output : Option PngArtifact
  prompts : List String
  fs : PngFS
deriving Repr, DecidableEq

/-- Resize stage of the PNG waterfall, compression.rs lines 601-674: resize
binary search, then copy on a best scale (note the source copies `resize_out`,
i.e. the last written attempt), or the save-smallest consent when no scale met
the target, then unconditional cleanup of all four temp paths. On refusal of
save-smallest the function still falls through to cleanup and `Ok`. -/
def pngResizeStage (env : PngEnv) (target : Nat) (baseGray : Bool)
    (ps : List String) (fs : PngFS) : PngRun :=
  match pngResizeEngineLoop env baseGray target 1 100 8 none none with
  | .abort rsz => ⟨.err "spawn error", none, ps, { fs with rsz := rsz }⟩
  | .done best rsz =>
    let fs1 : PngFS := { fs with rsz := rsz }
    match best with
    | some _ =>
      match fs1.rsz with
      | none => ⟨.err "copy failed", none, ps, fs1⟩
      | some w => ⟨.ok "Hybrid Chain", some (.resizeCopy w), ps, ⟨false, none, false, none⟩⟩
    | none =>
      let save := env.autoYes || env.ansSaveSmallest
      let ps2 := ps ++ (if env.autoYes then ([] : List String)
        else ["Target unreachable. Save smallest possible?"])
      if save then
        match fs1.rsz with
        | none => ⟨.err "copy failed", none, ps2, fs1⟩
        | some w => ⟨.ok "Hybrid Chain", some (.resizeCopy w), ps2, ⟨false, none, false, none⟩⟩
      else
        ⟨.ok "Hybrid Chain", none, ps2, ⟨false, none, false, none⟩⟩

/-- Best-effort exit of the PNG waterfall, compression.rs lines 539-559 and
577-598: copy the last pngquant artifact to the output (the
`_color_candidate_path` is always `Some(pq_out)` on this path), then remove
`pq_out`, `oxi_out` and `gray_out`. -/
def pngBestEffortColor (ps : List String) (fs : PngFS)
    (alg : String) : PngRun :=
  match fs.pq with
  | none => ⟨.err "copy failed", none, ps, fs⟩
  | some pc =>
    ⟨.ok alg, some (.pqCopy pc.1 pc.2), ps, { fs with pq := none, oxi := false, gray := false }⟩

/-- Branch B of the PNG waterfall, compression.rs lines 512-599: choose the
resize base (grayscale offered when strictly smaller than the color strip) or
exit best-effort when the user declines every resize option. -/
def pngBranchB (env : PngEnv) (target oxiSize graySize : Nat)
    (ps : List String) (fs : PngFS) : PngRun :=
  if graySize < oxiSize then
    let useGray := env.autoYes || env.ansUseGrayForResize
    let ps1 := ps ++ (if env.autoYes then ([] : List String)
      else ["Target unreachable in Color. Proceed with Grayscale Resizing?"])
    if useGray then pngResizeStage env target true ps1 fs
    else
      let resizeColor := env.autoYes || env.ansResizeColor
      let ps2 := ps1 ++ (if env.autoYes then ([] : List String)
        else ["Resize the Color image instead?"])
      if resizeColor then pngResizeStage env target false ps2 fs
      else pngBestEffortColor ps2 fs "pngquant (Best Effort Color)"
  else
    let doResize := env.autoYes || env.ansResize
    let ps1 := ps ++ (if env.autoYes then ([] : List String)
      else ["Target unreachable. Resize image dimensions?"])
    if doResize then pngResizeStage env target false ps1 fs
    else pngBestEffortColor ps1 fs "pngquant (Best Effort)"

/-- Grayscale stage and Branch A of the PNG waterfall, compression.rs lines
464-510: convert the stripped image to grayscale (exit status ignored, size of
a missing file reads as 0), accept it on consent when it meets the target,
otherwise continue into Branch B. -/
def pngAfterQuant (env : PngEnv) (target oxiSize : Nat) (fs : PngFS) : PngRun :=
  match env.grayRes with
  | .spawnErr => ⟨.err "spawn error", none, [], fs⟩
  | .exit gOk =>
    let fs1 : PngFS := { fs with gray := gOk }
    let graySize := if gOk then env.graySize else 0
    if graySize ≤ target then
      let acc := env.autoYes || env.ansGrayAccept
      let ps1 := if env.autoYes then ([] : List String)
        else ["Target reached by converting to Grayscale. Proceed?"]
      if acc then
        if gOk then
          ⟨.ok "pngquant + Grayscale", some .grayCopy, ps1,
            { fs1 with gray := false, oxi := false, pq := none }⟩
        else ⟨.err "copy failed", none, ps1, fs1⟩
      else pngBranchB env target oxiSize graySize ps1 fs1
    else pngBranchB env target oxiSize graySize [] fs1

/-- The PNG pipeline after the keep-original short circuit: oxipng strip
(lines 339-343; exit status ignored, spawn error propagates), the lossless
returns (356-385), the quantization loop and its success exit (387-458), then
the fallback stages. -/
def pngAfterStrip (env : PngEnv) (targetKb : Option Nat) : PngRun :=
  match env.oxiRes with
  | .spawnErr => ⟨.err "spawn error", none, [], ⟨false, none, false, none⟩⟩
  | .exit oxOk =>
    let fs0 : PngFS := ⟨oxOk, none, false, none⟩
    let oxiSize := if oxOk then env.oxiSize else 0
    match targetKb with
    | none =>
      if oxOk then ⟨.ok "oxipng (Lossless)", some .oxiCopy, [], ⟨false, none, false, none⟩⟩
      else ⟨.err "copy failed", none, [], fs0⟩
    | some target =>
      if oxiSize ≤ target then
        if oxOk then ⟨.ok "oxipng (Lossless)", some .oxiCopy, [], ⟨false, none, false, none⟩⟩
        else ⟨.err "copy failed", none, [], fs0⟩
      else
        match pngQuantEngineLoop env target 30 100 8 none none with
        | .abort pq => ⟨.err "spawn error", none, [], { fs0 with pq := pq }⟩
        | .done best pq =>
          let fs1 : PngFS := { fs0 with pq := pq }
          match best with
          | some _ =>
            match fs1.pq with
            | none => ⟨.err "copy failed", none, [], fs1⟩
            | some pc =>
              ⟨.ok "Hybrid (Oxipng + Binary Search)", some (.pqCopy pc.1 pc.2), [],
                { fs1 with pq := none, oxi := false }⟩
          | none => pngAfterQuant env target oxiSize fs1

/-- compress_png, compression.rs lines 304-675. -/
def compress_png (env : PngEnv) (targetKb : Option Nat) : PngRun :=
  match targetKb with
  | some target =>
    if env.originalSize ≤ target then
      let keep := env.autoYes || env.ansKeepOriginal
      let ps := if env.autoYes then ([] : List String) else ["Keep original file?"]
      if keep then
        ⟨.ok "No compression (requested size >= original)", some .originalCopy, ps,
          ⟨false, none, false, none⟩⟩
      else ⟨.err "Compression cancelled by user.", none, ps, ⟨false, none, false, none⟩⟩
    else pngAfterStrip env (some target)
  | none => pngAfterStrip env none

/-! ## JPEG engine (compress_jpg, compression.rs lines 88-302) and the shared
fallback path (handle_fallback_options, lines 864-932) -/

/-- One codec invocation of the JPEG engine. -/
inductive JpgCall where
  | jpegoptim
  | magickRung (p : Nat)
  | magickExtent
  | fbGray
  | fbResizeProbe (s : Nat)
  | fbFinalResize (s : Nat)
deriving Repr, DecidableEq

/-- What is at the JPEG output path at return. The fallback path mutates the
output file in place (grayscale and resize write over it), tagged `fbMutated`. -/
inductive JpgArtifact where
  | originalCopy
  | optimCopy
  | rungOut (p : Nat)
  | extentOut
  | fbMutated
deriving Repr, DecidableEq

/-- Observable outcome of one `compress_jpg` call. -/
structure JpgRun where
  result : RunResult
  output : Option JpgArtifact
  calls : List JpgCall
  prompts : List String
deriving Repr, DecidableEq

/-- Environment for one `compress_jpg` call. `optimSize` is the size of
`tmp_optim` after a successful jpegoptim run, `optimFailSize` its size when
jpegoptim exits unsuccessfully on the with-target path (the partial stdout
capture). `magickRung`/`rungSize` cover the no-target ladder, indexed by the
percentage; `magickExtent`/`extentOutSize` the single with-target lossy pass.
The `fb*` fields drive the shared fallback path, whose `Confirm` prompts are
answered by `ansFbGray`/`ansFbResize` (the source consults the interactive
gate there regardless of the auto-yes flag). -/
structure JpgEnv where
  originalSize : Nat
  jpegoptimRes : Invoke
  optimSize : Nat
  optimFailSize : Nat
  magickRung : Nat → Invoke
  rungSize : Nat → Nat
  magickExtent : Invoke
  extentOutSize : Nat
  fbGrayRes : Invoke
  fbGraySize : Nat
  fbResizeRes : Nat → Invoke
  fbResizeSize : Nat → Nat
  fbFinalResizeRes : Invoke
  autoYes : Bool
  ansKeepOriginal : Bool
  ansFbGray : Bool
  ansFbResize : Bool

/-- Whether ladder rung `p` succeeds: its magick invocation exits cleanly and
the actual output size is at most the computed byte target
`original_size * p / 100` (compression.rs lines 146-171). -/
def jpgHit (env : JpgEnv) (p : Nat) : Bool :=
  (env.magickRung p == Invoke.exit true) &&
    decide (env.rungSize p ≤ env.originalSize * p / 100)

/-- Result of the no-target extent ladder. -/
inductive LadderOut where
  | abort (calls : List JpgCall)
  | accepted (percent size : Nat) (calls : List JpgCall)
  | exhausted (calls : List JpgCall)
deriving Repr, DecidableEq

/-- The no-target extent ladder, compression.rs lines 145-181: for each
percentage in order, invoke magick at that extent; a spawn error propagates, a
nonzero exit skips the rung (`continue`), and the first rung whose actual
output size meets its computed byte target is accepted (`break`). -/
def jpgLadder (env : JpgEnv) : List Nat → List JpgCall → LadderOut
  | [], cs => .exhausted cs
  | p :: rest, cs =>
    match env.magickRung p with
    | .spawnErr => .abort (cs ++ [.magickRung p])
    | .exit false => jpgLadder env rest (cs ++ [.magickRung p])
    | .exit true =>
      let size := env.rungSize p
      if size ≤ env.originalSize * p / 100 then .accepted p size (cs ++ [.magickRung p])
      else jpgLadder env rest (cs ++ [.magickRung p])

/-- Result of the fallback resize loop: final `best_scale` (0 when none), the
current output artifact (the loop resizes the output file in place), and the
accumulated calls. -/
inductive FbLoopOut where
  | abort (cur : JpgArtifact) (calls : List JpgCall)
  | done (best : Nat) (cur : JpgArtifact) (calls : List JpgCall)
deriving Repr, DecidableEq

/-- The fallback resize loop, compression.rs lines 899-920: scale range
`[1,99]`, at most 8 probes, each successful probe resizes the output file in
place; a failed invocation leaves bounds, best and the file unchanged. -/
def jpgFbLoop (env : JpgEnv) (target : Nat) :
    Nat → Nat → Nat → Nat → JpgArtifact → List JpgCall → FbLoopOut
  | _, _, 0, best, cur, cs => .done best cur cs
  | lo, hi, fuel + 1, best, cur, cs =>
    if lo ≤ hi then
      let mid := (lo + hi) / 2
      match env.fbResizeRes mid with
      | .spawnErr => .abort cur (cs ++ [.fbResizeProbe mid])
      | .exit false => jpgFbLoop env target lo hi fuel best cur (cs ++ [.fbResizeProbe mid])
      | .exit true =>
        let size := env.fbResizeSize mid
        if size ≤ target then
          jpgFbLoop env target (mid + 1) hi fuel mid .fbMutated (cs ++ [.fbResizeProbe mid])
        else
          jpgFbLoop env target lo (mid - 1) fuel best .fbMutated (cs ++ [.fbResizeProbe mid])
    else .done best cur cs

/-- Second half of handle_fallback_options, compression.rs lines 889-931: the
resize consent prompt (always interactive), the resize loop, the final resize
at the best scale (exit status ignored), or the best-effort return. -/
def jpgFbResize (env : JpgEnv) (target : Nat) (cur : JpgArtifact)
    (cs : List JpgCall) (ps : List String) : JpgRun :=
  let ps1 := ps ++ ["   Resize image dimensions to fit?"]
  if env.ansFbResize then
    match jpgFbLoop env target 1 99 8 0 cur cs with
    | .abort c2 cs2 => ⟨.err "spawn error", some c2, cs2, ps1⟩
    | .done best c2 cs2 =>
      if 0 < best then
        match env.fbFinalResizeRes with
        | .spawnErr => ⟨.err "spawn error", some c2, cs2 ++ [.fbFinalResize best], ps1⟩
        | .exit _ =>
          ⟨.ok ("JPG + Resize " ++ toString best ++ "%"), some .fbMutated,
            cs2 ++ [.fbFinalResize best], ps1⟩
      else ⟨.ok "Best Effort", some c2, cs2, ps1⟩
  else ⟨.ok "Best Effort", some cur, cs, ps1⟩

/-- handle_fallback_options, compression.rs lines 864-932. Its signature has
no auto-yes parameter: both consent prompts go through the interactive gate
unconditionally. Entered with the single lossy pass artifact at the output
path. -/
def handle_fallback_options (env : JpgEnv) (target : Nat)
    (cs0 : List JpgCall) (ps0 : List String) : JpgRun :=
  let ps1 := ps0 ++ ["   Convert to Grayscale (B&W) to save space?"]
  if env.ansFbGray then
    let cs1 := cs0 ++ [.fbGray]
    match env.fbGrayRes with
    | .spawnErr => ⟨.err "spawn error", some .extentOut, cs1, ps1⟩
    | .exit false => jpgFbResize env target .extentOut cs1 ps1
    | .exit true =>
      if env.fbGraySize ≤ target then ⟨.ok "JPG + Grayscale", some .fbMutated, cs1, ps1⟩
      else jpgFbResize env target .fbMutated cs1 ps1
  else jpgFbResize env target .extentOut cs0 ps1

/-- compress_jpg, compression.rs lines 88-302: keep-original short circuit
(94-110), then either the no-target ladder (113-199, jpegoptim failure falls
back to a copy of the input) or the with-target path (200-301: jpegoptim,
lossless early return, single extent pass, fallback options). -/
def compress_jpg (env : JpgEnv) (targetKb : Option Nat) : JpgRun :=
  match targetKb with
  | some target =>
    if env.originalSize ≤ target then
      let keep := env.autoYes || env.ansKeepOriginal
      let ps := if env.autoYes then ([] : List String) else ["Keep original file?"]
      if keep then
        ⟨.ok "No compression (requested size >= original)", some .originalCopy, [], ps⟩
      else ⟨.err "Compression cancelled by user.", none, [], ps⟩
    else
      match env.jpegoptimRes with
      | .spawnErr => ⟨.err "spawn error", none, [.jpegoptim], []⟩
      | .exit o =>
        let optimSize := if o then env.optimSize else env.optimFailSize
        if optimSize ≤ target then
          ⟨.ok "jpegoptim (Lossless)", some .optimCopy, [.jpegoptim], []⟩
        else
          match env.magickExtent with
          | .spawnErr => ⟨.err "spawn error", none, [.jpegoptim, .magickExtent], []⟩
          | .exit false => ⟨.err "ImageMagick failed.", none, [.jpegoptim, .magickExtent], []⟩
          | .exit true =>
            if env.extentOutSize ≤ target then
              ⟨.ok "jpegoptim + ImageMagick", some .extentOut, [.jpegoptim, .magickExtent], []⟩
            else handle_fallback_options env target [.jpegoptim, .magickExtent] []
  | none =>
    match env.jpegoptimRes with
    | .spawnErr => ⟨.err "spawn error", none, [.jpegoptim], []⟩
    | .exit _ =>
      match jpgLadder env [60, 65, 70, 75, 80, 85, 90, 95] [.jpegoptim] with
      | .abort cs => ⟨.err "spawn error", none, cs, []⟩
      | .accepted p _size cs =>
        ⟨.ok ("jpegoptim + magick (Standard Preset, target " ++
            toString (env.originalSize * p / 100) ++ " KB)"),
          some (.rungOut p), cs, []⟩
      | .exhausted cs =>
        ⟨.ok "jpegoptim + magick (No reduction, original kept)", some .originalCopy, cs, []⟩

/-! ## Concrete environments used by witnesses and counterexamples -/

/-- PDF environment: 1000 KB input, `/screen` floor probe succeeds at 500 KB,
auto-yes set. -/
def wPdfFloorEnv : PdfEnv where
  originalSize := 1000
  presetOk := true
  screenOk := true
  screenSize := 500
  gsDpiOk := fun _ => true
  gsDpiSize := fun _ => 300
  fallbackOk := true
  autoYes := true
  ansKeepOriginal := true
  ansSaveFloor := true

/-- PDF environment: 1000 KB input, the `/screen` floor probe itself fails. -/
def wPdfNoFloorEnv : PdfEnv where
  originalSize := 1000
  presetOk := true
  screenOk := false
  screenSize := 0
  gsDpiOk := fun _ => true
  gsDpiSize := fun _ => 300
  fallbackOk := true
  autoYes := false
  ansKeepOriginal := true
  ansSaveFloor := true

/-- PDF environment as `wPdfFloorEnv` but interactive with the floor consent
refused. -/
def wPdfFloorRefuseEnv : PdfEnv where
  originalSize := 1000
  presetOk := true
  screenOk := true
  screenSize := 500
  gsDpiOk := fun _ => true
  gsDpiSize := fun _ => 300
  fallbackOk := true
  autoYes := false
  ansKeepOriginal := true
  ansSaveFloor := false

/-- PNG environment reaching the resize-exhausted branch with every consent
that matters refused: 100 KB input, stripped 50 KB, every pngquant probe
exits cleanly at 40 KB, grayscale 60 KB, every resize probe exits cleanly at
30 KB; the user agrees to resize but refuses to save the smallest attempt. -/
def cexPngRefuseEnv : PngEnv where
  originalSize := 100
  oxiRes := .exit true
  oxiSize := 50
  pngquantRes := fun _ _ => .exit true
  pngquantSize := fun _ _ => 40
  grayRes := .exit true
  graySize := 60
  resizeRes := fun _ _ => .exit true
  resizeSize := fun _ _ => 30
  autoYes := false
  ansKeepOriginal := true
  ansGrayAccept := true
  ansUseGrayForResize := true
  ansResizeColor := true
  ansResize := true
  ansSaveSmallest := false

/-- PNG environment whose first pngquant invocation is a spawn error, with the
stripped temp already on disk. -/
def cexPngLeakEnv : PngEnv where
  originalSize := 100
  oxiRes := .exit true
  oxiSize := 50
  pngquantRes := fun _ _ => .spawnErr
  pngquantSize := fun _ _ => 40
  grayRes := .exit true
  graySize := 60
  resizeRes := fun _ _ => .exit true
  resizeSize := fun _ _ => 30
  autoYes := false
  ansKeepOriginal := true
  ansGrayAccept := true
  ansUseGrayForResize := true
  ansResizeColor := true
  ansResize := true
  ansSaveSmallest := true

/-- JPEG environment for the no-target ladder: 1000 KB input, every rung exits
cleanly, rung 70 is the first whose output (600 KB) meets its byte target. -/
def wJpgLadderEnv : JpgEnv where
  originalSize := 1000
  jpegoptimRes := .exit true
  optimSize := 950
  optimFailSize := 0
  magickRung := fun _ => .exit true
  rungSize := fun p => if p = 70 then 600 else 999
  magickExtent := .exit true
  extentOutSize := 950
  fbGrayRes := .exit true
  fbGraySize := 999
  fbResizeRes := fun _ => .exit true
  fbResizeSize := fun _ => 999
  fbFinalResizeRes := .exit true
  autoYes := true
  ansKeepOriginal := true
  ansFbGray := false
  ansFbResize := false

/-- JPEG environment with auto-yes set that reaches the shared fallback path:
target below the original, lossless pass at 50 KB above a 10 KB target, and a
single lossy pass at 40 KB still above it. -/
def wJpgFbEnv : JpgEnv where
  originalSize := 100
  jpegoptimRes := .exit true
  optimSize := 50
  optimFailSize := 0
  magickRung := fun _ => .exit true
  rungSize := fun _ => 999
  magickExtent := .exit true
  extentOutSize := 40
  fbGrayRes := .exit true
  fbGraySize := 5
  fbResizeRes := fun _ => .exit true
  fbResizeSize := fun _ => 999
  fbFinalResizeRes := .exit true
  autoYes := true
  ansKeepOriginal := true
  ansFbGray := true
  ansFbResize := true

/-! ## Lemmas about the generic bounded binary search -/

theorem searchRun_zero (failShrink : Bool) (probe : Nat → Nat → ProbeOut)
    (target : Nat) (s : SState) :
    searchRun failShrink probe target 0 s = (s, []) := rfl

theorem searchRun_succ (failShrink : Bool) (probe : Nat → Nat → ProbeOut)
    (target fuel : Nat) (s : SState) (h : s.lo ≤ s.hi) :
    searchRun failShrink probe target (fuel + 1) s =
      ((searchRun failShrink probe target fuel (searchStep failShrink probe target s)).1,
        ⟨(s.lo + s.hi) / 2, s.hi, (probe ((s.lo + s.hi) / 2) s.hi).ok,
          (probe ((s.lo + s.hi) / 2) s.hi).size⟩ ::
          (searchRun failShrink probe target fuel (searchStep failShrink probe target s)).2) := by
  rw [searchRun]
  simp [h]

theorem searchRun_succ_stop (failShrink : Bool) (probe : Nat → Nat → ProbeOut)
    (target fuel : Nat) (s : SState) (h : ¬ s.lo ≤ s.hi) :
    searchRun failShrink probe target (fuel + 1) s = (s, []) := by
  rw [searchRun]
  simp [h]

theorem searchStep_eq (failShrink : Bool) (probe : Nat → Nat → ProbeOut)
    (target : Nat) (s : SState) :
    searchStep failShrink probe target s =
      if (probe ((s.lo + s.hi) / 2) s.hi).ok then
        if (probe ((s.lo + s.hi) / 2) s.hi).size ≤ target then
          ⟨(s.lo + s.hi) / 2 + 1, s.hi, some ((s.lo + s.hi) / 2,
            (probe ((s.lo + s.hi) / 2) s.hi).size)⟩
        else ⟨s.lo, (s.lo + s.hi) / 2 - 1, s.best⟩
      else if failShrink then ⟨s.lo, (s.lo + s.hi) / 2 - 1, s.best⟩
      else s := rfl

/-- Once a candidate meeting the target is recorded and the lower bound has
moved past it, the loop can only replace it by candidates with a knob at
least as high, still meeting the target. -/
theorem searchRun_best_kept (failShrink : Bool) (probe : Nat → Nat → ProbeOut)
    (target : Nat) (fuel : Nat) :
    ∀ (s : SState) (q0 s0 : Nat),
      s.best = some (q0, s0) → s0 ≤ target → q0 < s.lo →
      ∃ q1 s1, (searchRun failShrink probe target fuel s).1.best = some (q1, s1) ∧
        s1 ≤ target ∧ q0 ≤ q1 := by
  induction fuel with
  | zero =>
    intro s q0 s0 hb hs _
    exact ⟨q0, s0, by simpa [searchRun_zero] using hb, hs, le_refl _⟩
  | succ n ih =>
    intro s q0 s0 hb hs hq
    by_cases hlh : s.lo ≤ s.hi
    · rw [searchRun_succ _ _ _ _ _ hlh]
      have hmid : s.lo ≤ (s.lo + s.hi) / 2 := by omega
      rw [searchStep_eq]
      by_cases hok : (probe ((s.lo + s.hi) / 2) s.hi).ok
      · by_cases hsz : (probe ((s.lo + s.hi) / 2) s.hi).size ≤ target
        · rw [if_pos hok, if_pos hsz]
          obtain ⟨q1, s1, h1, h2, h3⟩ :=
            ih ⟨(s.lo + s.hi) / 2 + 1, s.hi, some ((s.lo + s.hi) / 2,
              (probe ((s.lo + s.hi) / 2) s.hi).size)⟩
              ((s.lo + s.hi) / 2) ((probe ((s.lo + s.hi) / 2) s.hi).size) rfl hsz
              (Nat.lt_succ_self _)
          exact ⟨q1, s1, h1, h2, by omega⟩
        · rw [if_pos hok, if_neg hsz]
          exact ih ⟨s.lo, (s.lo + s.hi) / 2 - 1, s.best⟩ q0 s0 hb hs hq
      · rw [if_neg hok]
        cases failShrink with
        | true =>
          rw [if_pos rfl]
          exact ih ⟨s.lo, (s.lo + s.hi) / 2 - 1, s.best⟩ q0 s0 hb hs hq
        | false =>
          rw [if_neg (by simp)]
          exact ih s q0 s0 hb hs hq
    · rw [searchRun_succ_stop _ _ _ _ _ hlh]
      exact ⟨q0, s0, hb, hs, le_refl _⟩

/-- When every probe exits cleanly with size `f knob` and the lowest knob of a
nonempty range meets the target, the loop ends with a recorded candidate
meeting the target, provided the fuel exceeds the binary logarithm of the
range width. -/
theorem searchRun_finds (failShrink : Bool) (f : Nat → Nat) (target : Nat) (fuel : Nat) :
    ∀ (lo hi : Nat) (b : Option (Nat × Nat)),
      f lo ≤ target → lo ≤ hi → hi - lo < 2 ^ fuel → 1 ≤ fuel →
      ∃ q s,
        (searchRun failShrink (fun m _ => ⟨true, f m⟩) target fuel ⟨lo, hi, b⟩).1.best =
          some (q, s) ∧ s ≤ target := by
  induction fuel with
  | zero => intro lo hi b _ _ _ h1; exact absurd h1 (by omega)
  | succ n ih =>
    intro lo hi b hflo hlh hw _
    rw [searchRun_succ _ _ _ _ _ hlh]
    rw [searchStep_eq]
    by_cases hhit : f ((lo + hi) / 2) ≤ target
    · simp only [if_pos hhit, if_pos rfl]
      obtain ⟨q1, s1, h1, h2, _⟩ :=
        searchRun_best_kept failShrink (fun m _ => ⟨true, f m⟩) target n
          ⟨(lo + hi) / 2 + 1, hi, some ((lo + hi) / 2, f ((lo + hi) / 2))⟩
          ((lo + hi) / 2) (f ((lo + hi) / 2)) rfl hhit (Nat.lt_succ_self _)
      exact ⟨q1, s1, h1, h2⟩
    · have hne : lo ≠ (lo + hi) / 2 := by
        intro h
        exact hhit (h ▸ hflo)
      have hmid : lo < (lo + hi) / 2 := by omega
      have hwide : lo + 2 ≤ hi := by omega
      rw [pow_succ] at hw
      have hn : 1 ≤ n := by
        rcases n with _ | m
        · simp at hw
          omega
        · omega
      simp only [if_pos rfl, if_neg hhit]
      exact ih lo ((lo + hi) / 2 - 1) b hflo (by omega) (by omega) hn

theorem searchStep_bounds (failShrink : Bool) (probe : Nat → Nat → ProbeOut)
    (target : Nat) (s : SState) (h : s.lo ≤ s.hi) :
    s.lo ≤ (searchStep failShrink probe target s).lo ∧
      (searchStep failShrink probe target s).hi ≤ s.hi := by
  rw [searchStep_eq]
  split_ifs <;> constructor <;> (try dsimp only) <;> omega

/-- Every probe of a run is made inside the initial range, with the lower
quality argument the midpoint and the upper argument the current upper bound. -/
theorem searchRun_calls_bounds (failShrink : Bool) (probe : Nat → Nat → ProbeOut)
    (target : Nat) (fuel : Nat) :
    ∀ s : SState, ∀ c ∈ (searchRun failShrink probe target fuel s).2,
      s.lo ≤ c.qlo ∧ c.qlo ≤ c.qhi ∧ c.qhi ≤ s.hi := by
  induction fuel with
  | zero => intro s c hc; simp [searchRun_zero] at hc
  | succ n ih =>
    intro s c hc
    by_cases hlh : s.lo ≤ s.hi
    · rw [searchRun_succ _ _ _ _ _ hlh] at hc
      simp only [List.mem_cons] at hc
      rcases hc with rfl | hc
      · exact ⟨by dsimp only; omega, by dsimp only; omega, le_refl _⟩
      · have hb := searchStep_bounds failShrink probe target s hlh
        obtain ⟨h1, h2, h3⟩ := ih (searchStep failShrink probe target s) c hc
        exact ⟨le_trans hb.1 h1, h2, le_trans h3 hb.2⟩
    · rw [searchRun_succ_stop _ _ _ _ _ hlh] at hc
      simp at hc

/-- Whatever candidate the loop ends with was either there initially or was
recorded by a successful probe of this run that met the target. -/
theorem searchRun_best_origin (failShrink : Bool) (probe : Nat → Nat → ProbeOut)
    (target : Nat) (fuel : Nat) :
    ∀ (s : SState) (q sz : Nat),
      (searchRun failShrink probe target fuel s).1.best = some (q, sz) →
      s.best = some (q, sz) ∨
        ∃ c ∈ (searchRun failShrink probe target fuel s).2,
          c.ok = true ∧ c.size ≤ target ∧ c.qlo = q ∧ c.size = sz := by
  induction fuel with
  | zero => intro s q sz h; left; simpa [searchRun_zero] using h
  | succ n ih =>
    intro s q sz h
    by_cases hlh : s.lo ≤ s.hi
    · rw [searchRun_succ _ _ _ _ _ hlh] at h
      rw [searchRun_succ _ _ _ _ _ hlh]
      dsimp only at h ⊢
      rcases ih (searchStep failShrink probe target s) q sz h with hbest | ⟨c, hc, h1, h2, h3, h4⟩
      · rw [searchStep_eq] at hbest
        by_cases hok : (probe ((s.lo + s.hi) / 2) s.hi).ok
        · by_cases hsz : (probe ((s.lo + s.hi) / 2) s.hi).size ≤ target
          · rw [if_pos hok, if_pos hsz] at hbest
            dsimp only at hbest
            right
            refine ⟨⟨(s.lo + s.hi) / 2, s.hi, (probe ((s.lo + s.hi) / 2) s.hi).ok,
              (probe ((s.lo + s.hi) / 2) s.hi).size⟩, List.mem_cons_self _ _, hok, hsz, ?_, ?_⟩
            · exact congrArg Prod.fst (Option.some.inj hbest)
            · exact congrArg Prod.snd (Option.some.inj hbest)
          · rw [if_pos hok, if_neg hsz] at hbest
            exact Or.inl hbest
        · rw [if_neg hok] at hbest
          cases failShrink with
          | true => rw [if_pos rfl] at hbest; exact Or.inl hbest
          | false => rw [if_neg (by simp)] at hbest; exact Or.inl hbest
      · exact Or.inr ⟨c, List.mem_cons_of_mem _ hc, h1, h2, h3, h4⟩
    · rw [searchRun_succ_stop _ _ _ _ _ hlh] at h
      rw [searchRun_succ_stop _ _ _ _ _ hlh]
      exact Or.inl h

/-- Every successful probe of a run that met the target is dominated by the
final candidate: the loop ends with a recorded candidate meeting the target
whose knob is at least as high. -/
theorem searchRun_hits_le_best (failShrink : Bool) (probe : Nat → Nat → ProbeOut)
    (target : Nat) (fuel : Nat) :
    ∀ s : SState, ∀ c ∈ (searchRun failShrink probe target fuel s).2,
      c.ok = true → c.size ≤ target →
      ∃ q sz, (searchRun failShrink probe target fuel s).1.best = some (q, sz) ∧
        sz ≤ target ∧ c.qlo ≤ q := by
  induction fuel with
  | zero => intro s c hc; simp [searchRun_zero] at hc
  | succ n ih =>
    intro s c hc hcok hcsz
    by_cases hlh : s.lo ≤ s.hi
    · rw [searchRun_succ _ _ _ _ _ hlh] at hc
      rw [searchRun_succ _ _ _ _ _ hlh]
      dsimp only at hc ⊢
      simp only [List.mem_cons] at hc
      rcases hc with rfl | hc
      · dsimp only at hcok hcsz
        have hstep : searchStep failShrink probe target s =
            ⟨(s.lo + s.hi) / 2 + 1, s.hi, some ((s.lo + s.hi) / 2,
              (probe ((s.lo + s.hi) / 2) s.hi).size)⟩ := by
          rw [searchStep_eq, if_pos hcok, if_pos hcsz]
        rw [hstep]
        obtain ⟨q1, s1, h1, h2, h3⟩ :=
          searchRun_best_kept failShrink probe target n
            ⟨(s.lo + s.hi) / 2 + 1, s.hi, some ((s.lo + s.hi) / 2,
              (probe ((s.lo + s.hi) / 2) s.hi).size)⟩
            ((s.lo + s.hi) / 2) ((probe ((s.lo + s.hi) / 2) s.hi).size) rfl hcsz
            (Nat.lt_succ_self _)
        exact ⟨q1, s1, h1, h2, h3⟩
      · exact ih (searchStep failShrink probe target s) c hc hcok hcsz
    · rw [searchRun_succ_stop _ _ _ _ _ hlh] at hc
      simp at hc

theorem pdfDpiRange_bounds (o t : Nat) :
    (pdfDpiRange o t).1 ≤ (pdfDpiRange o t).2 ∧
      (pdfDpiRange o t).2 - (pdfDpiRange o t).1 < 2 ^ 14 := by
  unfold pdfDpiRange
  split_ifs <;> exact ⟨by norm_num, by norm_num⟩

/-- C1: for every binary search loop (PNG quality, PNG/JPEG scale, PDF DPI),
if the probe function is monotonic non-decreasing in the knob and at least one
knob in the initial range yields a size at most the target, then the loop ends
with a recorded best candidate within its probe budget (8 probes for the
PNG/JPEG knobs, 14 for PDF DPI over each adaptive range), and the recorded
candidate meets the target. -/
theorem binary_search_monotone_feasible (f : Nat → Nat) (target : Nat)
    (hmono : ∀ i j, i ≤ j → f i ≤ f j) :
    ((∃ k, 30 ≤ k ∧ k ≤ 100 ∧ f k ≤ target) →
      ∃ q s, (pngQuantSearch (fun mid _ => ⟨true, f mid⟩) target).1.best = some (q, s) ∧
        s ≤ target) ∧
    ((∃ k, 1 ≤ k ∧ k ≤ 100 ∧ f k ≤ target) →
      ∃ q s, (pngResizeSearch (fun mid => ⟨true, f mid⟩) target).1.best = some (q, s) ∧
        s ≤ target) ∧
    ((∃ k, 1 ≤ k ∧ k ≤ 99 ∧ f k ≤ target) →
      ∃ q s, (jpgFallbackScaleSearch (fun mid => ⟨true, f mid⟩) target).1.best = some (q, s) ∧
        s ≤ target) ∧
    (∀ originalSize, (∃ k, (pdfDpiRange originalSize target).1 ≤ k ∧
        k ≤ (pdfDpiRange originalSize target).2 ∧ f k ≤ target) →
      ∃ d s, (pdfDpiSearch (fun mid => ⟨true, f mid⟩) target
          (pdfDpiRange originalSize target).1 (pdfDpiRange originalSize target).2).1.best =
        some (d, s) ∧ s ≤ target) := by
  refine ⟨?_, ?_, ?_, ?_⟩
  · rintro ⟨k, hk1, hk2, hk3⟩
    have hflo : f 30 ≤ target := le_trans (hmono 30 k hk1) hk3
    simpa [pngQuantSearch] using
      searchRun_finds true f target 8 30 100 none hflo (by omega) (by norm_num) (by norm_num)
  · rintro ⟨k, hk1, hk2, hk3⟩
    have hflo : f 1 ≤ target := le_trans (hmono 1 k hk1) hk3
    simpa [pngResizeSearch] using
      searchRun_finds false f target 8 1 100 none hflo (by omega) (by norm_num) (by norm_num)
  · rintro ⟨k, hk1, hk2, hk3⟩
    have hflo : f 1 ≤ target := le_trans (hmono 1 k hk1) hk3
    simpa [jpgFallbackScaleSearch] using
      searchRun_finds false f target 8 1 99 none hflo (by omega) (by norm_num) (by norm_num)
  · rintro originalSize ⟨k, hk1, hk2, hk3⟩
    have hflo : f (pdfDpiRange originalSize target).1 ≤ target :=
      le_trans (hmono _ k hk1) hk3
    have hb := pdfDpiRange_bounds originalSize target
    simpa [pdfDpiSearch] using
      searchRun_finds false f target 14 (pdfDpiRange originalSize target).1
        (pdfDpiRange originalSize target).2 none hflo hb.1 hb.2 (by norm_num)

/-- Witness for C1 at the identity probe and target 200, covering all four
loops (PDF at the 72-250 adaptive range of a 1000 KB input). -/
theorem binary_search_monotone_feasible_w :
    (∃ q s, (pngQuantSearch (fun mid _ => ⟨true, mid⟩) 200).1.best = some (q, s) ∧ s ≤ 200) ∧
    (∃ q s, (pngResizeSearch (fun mid => ⟨true, mid⟩) 200).1.best = some (q, s) ∧ s ≤ 200) ∧
    (∃ q s, (jpgFallbackScaleSearch (fun mid => ⟨true, mid⟩) 200).1.best = some (q, s) ∧
      s ≤ 200) ∧
    (∃ d s, (pdfDpiSearch (fun mid => ⟨true, mid⟩) 200
        (pdfDpiRange 1000 200).1 (pdfDpiRange 1000 200).2).1.best = some (d, s) ∧ s ≤ 200) := by
  have h := binary_search_monotone_feasible (fun k => k) 200 (fun i j hij => hij)
  exact ⟨h.1 ⟨30, by norm_num⟩, h.2.1 ⟨1, by norm_num⟩, h.2.2.1 ⟨1, by norm_num⟩,
    h.2.2.2 1000 ⟨72, by decide⟩⟩

/-- C4 counterexample: in the PNG resize loop a failing probe leaves the
search range unchanged (the claimed shrink would set the upper bound to
(1+100)/2 - 1 = 49): with every invocation failing, all 8 attempts are
consumed and the final bounds are still [1,100]. -/
theorem png_resize_fail_keeps_range_cex :
    (pngResizeSearch (fun _ => ⟨false, 0⟩) 10).1 = ⟨1, 100, none⟩ ∧
    (pngResizeSearch (fun _ => ⟨false, 0⟩) 10).2.length = 8 ∧
    ((1 + 100) / 2 - 1 : Nat) ≠ 100 := by decide

/-- C4 (amended): on a probe whose invocation fails (nonzero exit), the PNG
quality loop shrinks the upper bound to mid-1 and continues, while the PNG
resize, JPEG fallback resize and PDF DPI loops leave bounds and best unchanged
and only consume one attempt; in neither shape does the failure abort the
search. -/
theorem probe_failure_handling (probe : Nat → Nat → ProbeOut) (target : Nat) (s : SState)
    (h : s.lo ≤ s.hi) (hfail : (probe ((s.lo + s.hi) / 2) s.hi).ok = false) :
    searchStep true probe target s = ⟨s.lo, (s.lo + s.hi) / 2 - 1, s.best⟩ ∧
    searchStep false probe target s = s ∧
    (∀ fuel, (searchRun true probe target (fuel + 1) s).1 =
      (searchRun true probe target fuel ⟨s.lo, (s.lo + s.hi) / 2 - 1, s.best⟩).1) ∧
    (∀ fuel, (searchRun false probe target (fuel + 1) s).1 =
      (searchRun false probe target fuel s).1) := by
  have hstept : searchStep true probe target s = ⟨s.lo, (s.lo + s.hi) / 2 - 1, s.best⟩ := by
    rw [searchStep_eq, if_neg (by simp [hfail]), if_pos rfl]
  have hstepf : searchStep false probe target s = s := by
    rw [searchStep_eq, if_neg (by simp [hfail]), if_neg (by simp)]
  refine ⟨hstept, hstepf, ?_, ?_⟩
  · intro fuel
    rw [searchRun_succ _ _ _ _ _ h, hstept]
  · intro fuel
    rw [searchRun_succ _ _ _ _ _ h, hstepf]

/-- Witness for the amended C4 at a concrete failing probe and state. -/
theorem probe_failure_handling_w :
    searchStep true (fun _ _ => ⟨false, 7⟩) 10 ⟨30, 100, none⟩ = ⟨30, 64, none⟩ ∧
    searchStep false (fun _ _ => ⟨false, 7⟩) 10 ⟨30, 100, none⟩ = ⟨30, 100, none⟩ := by
  have h := probe_failure_handling (fun _ _ => ⟨false, 7⟩) 10 ⟨30, 100, none⟩
    (by norm_num) rfl
  exact ⟨h.1, h.2.1⟩

/-- C5 counterexample: with every pngquant probe exiting cleanly at 1000 KB
against target 10, the second invocation is made with quality range 47-64,
not 47-100: the upper bound of the range passed to pngquant is the current
search upper bound, not the fixed value 100. -/
theorem pngquant_range_cex :
    (pngQuantSearch (fun _ _ => ⟨true, 1000⟩) 10).2[1]? = some ⟨47, 64, true, 1000⟩ ∧
    ∃ c ∈ (pngQuantSearch (fun _ _ => ⟨true, 1000⟩) 10).2, c.qhi ≠ 100 := by decide

/-- C5 (amended): every pngquant probe of the quantization search is invoked
with quality range [mid, hi] where mid is the midpoint and hi the current
upper bound, all within [30,100]; and the candidate recorded at the end is a
successful probe that met the target whose quality is highest among all such
probes of the run. -/
theorem pngquant_range_and_best (probe : Nat → Nat → ProbeOut) (target : Nat) :
    (∀ c ∈ (pngQuantSearch probe target).2, 30 ≤ c.qlo ∧ c.qlo ≤ c.qhi ∧ c.qhi ≤ 100) ∧
    (∀ q sz, (pngQuantSearch probe target).1.best = some (q, sz) →
      (∃ c ∈ (pngQuantSearch probe target).2,
        c.ok = true ∧ c.size ≤ target ∧ c.qlo = q ∧ c.size = sz) ∧
      (∀ c ∈ (pngQuantSearch probe target).2, c.ok = true → c.size ≤ target →
        c.qlo ≤ q)) := by
  constructor
  · intro c hc
    exact searchRun_calls_bounds true probe target 8 ⟨30, 100, none⟩ c hc
  · intro q sz hb
    constructor
    · rcases searchRun_best_origin true probe target 8 ⟨30, 100, none⟩ q sz hb with h | h
      · exact absurd h (by simp)
      · exact h
    · intro c hc hok hsz
      obtain ⟨q1, s1, h1, _, h3⟩ :=
        searchRun_hits_le_best true probe target 8 ⟨30, 100, none⟩ c hc hok hsz
      have hqq : q1 = q := congrArg Prod.fst (Option.some.inj ((h1.symm.trans hb)))
      exact hqq ▸ h3

/-- Witness for the amended C5: probe size 10 per quality point against target
500 ends with candidate (50, 500), a recorded hit of the run. -/
theorem pngquant_range_and_best_w :
    ∃ c ∈ (pngQuantSearch (fun m _ => ⟨true, m * 10⟩) 500).2,
      c.ok = true ∧ c.size ≤ 500 ∧ c.qlo = 50 ∧ c.size = 500 :=
  ((pngquant_range_and_best (fun m _ => ⟨true, m * 10⟩) 500).2 50 500 (by decide)).1

/-! ## PDF engine claims -/

theorem pdfDpiLoop_calls_cons (env : PdfEnv) (t lo hi fuel : Nat) (found : Bool)
    (bd bs : Nat) (w : Option Nat) (h : lo ≤ hi) :
    ∃ tail, (pdfDpiLoop env t lo hi (fuel + 1) found bd bs w).calls =
      GsCall.dpi ((lo + hi) / 2) :: tail := by
  rw [pdfDpiLoop]
  rw [if_pos h]
  by_cases hg : env.gsDpiOk ((lo + hi) / 2)
  · by_cases hs : env.gsDpiSize ((lo + hi) / 2) ≤ t
    · rw [if_pos hg]
      simp only [if_pos hs]
      exact ⟨_, rfl⟩
    · rw [if_pos hg]
      simp only [if_neg hs]
      exact ⟨_, rfl⟩
  · rw [if_neg hg]
    exact ⟨_, rfl⟩

/-- C2: for the PDF engine with a target below the original size, whenever the
/screen floor probe succeeds and its measured floor size exceeds the target,
the engine performs no DPI-search probe (the floor render is its only
ghostscript call); with consent or auto-yes the final output is exactly the
floor artifact and the call returns success, and on refusal the call returns
the cancellation error. -/
theorem pdf_floor_unreachable (env : PdfEnv) (t : Nat)
    (hlt : t < env.originalSize) (hok : env.screenOk = true)
    (hgt : t < env.screenSize) :
    (compress_pdf env (some t)).calls = [GsCall.preset "/screen"] ∧
    ((env.autoYes || env.ansSaveFloor) = true →
      (compress_pdf env (some t)).result = .ok "Floor (Min Quality)" ∧
      (compress_pdf env (some t)).output = some .screenFloor) ∧
    ((env.autoYes || env.ansSaveFloor) = false →
      (compress_pdf env (some t)).result = .err "Compression cancelled." ∧
      (compress_pdf env (some t)).output = none) := by
  have h1 : ¬ env.originalSize ≤ t := by omega
  have h2 : env.screenOk = true ∧ t < (if env.screenOk then env.screenSize else 0) := by
    rw [hok]
    simpa using hgt
  simp only [compress_pdf, if_neg h1, if_pos h2]
  refine ⟨?_, ?_, ?_⟩
  · cases hk : (env.autoYes || env.ansSaveFloor) <;> simp [hk]
  · intro hy
    simp [hy]
  · intro hn
    simp [hn]

/-- Witness for C2 at `wPdfFloorEnv` (auto-yes) and `wPdfFloorRefuseEnv`
(refusal), target 400 KB against a 500 KB floor. -/
theorem pdf_floor_unreachable_w :
    (compress_pdf wPdfFloorEnv (some 400)).calls = [GsCall.preset "/screen"] ∧
    (compress_pdf wPdfFloorEnv (some 400)).result = .ok "Floor (Min Quality)" ∧
    (compress_pdf wPdfFloorEnv (some 400)).output = some .screenFloor ∧
    (compress_pdf wPdfFloorRefuseEnv (some 400)).result = .err "Compression cancelled." := by
  have h := pdf_floor_unreachable wPdfFloorEnv 400 (by decide) (by decide) (by decide)
  have h2 := pdf_floor_unreachable wPdfFloorRefuseEnv 400 (by decide) (by decide) (by decide)
  exact ⟨h.1, (h.2.1 (by decide)).1, (h.2.1 (by decide)).2, (h2.2.2 (by decide)).1⟩

/-- C10: for the PDF engine with a target below the original size, if the
/screen floor-detection invocation itself fails, the engine skips the
unreachable-target detection entirely (no prompt is shown and no cancellation
can be returned) and proceeds directly to the DPI binary search over the
adaptive range: right after the floor attempt, the next ghostscript call is
the DPI render at the adaptive-range midpoint. -/
theorem pdf_floor_failure_skips (env : PdfEnv) (t : Nat)
    (hlt : t < env.originalSize) (hfail : env.screenOk = false) :
    (compress_pdf env (some t)).prompts = [] ∧
    (compress_pdf env (some t)).result ≠ .err "Compression cancelled." ∧
    ∃ rest, (compress_pdf env (some t)).calls =
      GsCall.preset "/screen" :: GsCall.dpi
        (((pdfDpiRange env.originalSize t).1 + (pdfDpiRange env.originalSize t).2) / 2) ::
        rest := by
  have h1 : ¬ env.originalSize ≤ t := by omega
  have h2 : ¬ (env.screenOk = true ∧ t < (if env.screenOk then env.screenSize else 0)) := by
    simp [hfail]
  obtain ⟨tail, htail⟩ := pdfDpiLoop_calls_cons env t
    (pdfDpiRange env.originalSize t).1 (pdfDpiRange env.originalSize t).2 13 false 0 0 none
    (pdfDpiRange_bounds env.originalSize t).1
  simp only [compress_pdf, if_neg h1, if_neg h2]
  split_ifs with hfound hfb
  · exact ⟨rfl, by simp, tail, by rw [htail]⟩
  · exact ⟨rfl, by simp, tail ++ [.preset "/screen"], by rw [htail]; simp⟩
  · refine ⟨rfl, by simp, tail ++ [.preset "/screen"], by rw [htail]; simp⟩

/-- Witness for C10 at `wPdfNoFloorEnv`, target 100 KB. -/
theorem pdf_floor_failure_skips_w :
    (compress_pdf wPdfNoFloorEnv (some 100)).prompts = [] ∧
    (compress_pdf wPdfNoFloorEnv (some 100)).result ≠ .err "Compression cancelled." ∧
    ∃ rest, (compress_pdf wPdfNoFloorEnv (some 100)).calls =
      GsCall.preset "/screen" :: GsCall.dpi
        (((pdfDpiRange wPdfNoFloorEnv.originalSize 100).1 +
          (pdfDpiRange wPdfNoFloorEnv.originalSize 100).2) / 2) :: rest :=
  pdf_floor_failure_skips wPdfNoFloorEnv 100 (by decide) (by decide)

/-! ## Keep-original short circuit (all three engines) -/

/-- C3: for every input and every target at least the original size in KB,
each engine invokes no external codec (for PNG this is stated as the run not
depending on any codec-result field of the environment), copies the input to
the output and returns success on consent or auto-yes, and returns an error on
refusal. -/
theorem keep_original_short_circuit (t : Nat) :
    (∀ env : JpgEnv, env.originalSize ≤ t →
      (compress_jpg env (some t)).calls = [] ∧
      ((env.autoYes || env.ansKeepOriginal) = true →
        (compress_jpg env (some t)).result = .ok "No compression (requested size >= original)" ∧
        (compress_jpg env (some t)).output = some .originalCopy) ∧
      ((env.autoYes || env.ansKeepOriginal) = false →
        (compress_jpg env (some t)).result = .err "Compression cancelled by user.")) ∧
    (∀ env : PngEnv, env.originalSize ≤ t →
      (∀ env2 : PngEnv, env2.originalSize = env.originalSize → env2.autoYes = env.autoYes →
        env2.ansKeepOriginal = env.ansKeepOriginal →
        compress_png env (some t) = compress_png env2 (some t)) ∧
      ((env.autoYes || env.ansKeepOriginal) = true →
        (compress_png env (some t)).result = .ok "No compression (requested size >= original)" ∧
        (compress_png env (some t)).output = some .originalCopy) ∧
      ((env.autoYes || env.ansKeepOriginal) = false →
        (compress_png env (some t)).result = .err "Compression cancelled by user.")) ∧
    (∀ env : PdfEnv, env.originalSize ≤ t →
      (compress_pdf env (some t)).calls = [] ∧
      ((env.autoYes || env.ansKeepOriginal) = true →
        (compress_pdf env (some t)).result = .ok "No compression (requested size >= original)" ∧
        (compress_pdf env (some t)).output = some .originalCopy) ∧
      ((env.autoYes || env.ansKeepOriginal) = false →
        (compress_pdf env (some t)).result = .err "Compression cancelled by user.")) := by
  refine ⟨fun env h => ?_, fun env h => ?_, fun env h => ?_⟩
  · simp only [compress_jpg, if_pos h]
    refine ⟨?_, ?_, ?_⟩
    · cases hk : (env.autoYes || env.ansKeepOriginal) <;> simp [hk]
    · intro hy
      simp [hy]
    · intro hn
      simp [hn]
  · refine ⟨?_, ?_, ?_⟩
    · intro env2 e1 e2 e3
      simp only [compress_png, if_pos h, e1, e2, e3, if_pos (e1 ▸ h)]
    · intro hy
      simp only [compress_png, if_pos h]
      simp [hy]
    · intro hn
      simp only [compress_png, if_pos h]
      simp [hn]
  · simp only [compress_pdf, if_pos h]
    refine ⟨?_, ?_, ?_⟩
    · cases hk : (env.autoYes || env.ansKeepOriginal) <;> simp [hk]
    · intro hy
      simp [hy]
    · intro hn
      simp [hn]

/-- Witness for C3: a 100 KB target for JPEG and PNG inputs of 100 KB and a
1000 KB target for the 1000 KB PDF input, with consent. -/
theorem keep_original_short_circuit_w :
    (compress_jpg wJpgFbEnv (some 100)).calls = [] ∧
    (compress_jpg wJpgFbEnv (some 100)).result =
      .ok "No compression (requested size >= original)" ∧
    compress_png cexPngRefuseEnv (some 100) = compress_png cexPngLeakEnv (some 100) ∧
    (compress_png cexPngRefuseEnv (some 100)).result =
      .ok "No compression (requested size >= original)" ∧
    (compress_pdf wPdfFloorEnv (some 1000)).result =
      .ok "No compression (requested size >= original)" := by
  have h := keep_original_short_circuit 100
  have h2 := keep_original_short_circuit 1000
  exact ⟨(h.1 wJpgFbEnv (by decide)).1, ((h.1 wJpgFbEnv (by decide)).2.1 (by decide)).1,
    (h.2.1 cexPngRefuseEnv (by decide)).1 cexPngLeakEnv (by decide) (by decide) (by decide),
    ((h.2.1 cexPngRefuseEnv (by decide)).2.1 (by decide)).1,
    ((h2.2.2 wPdfFloorEnv (by decide)).2.1 (by decide)).1⟩

/-! ## JPEG ladder claims -/

/-- Closed form of the no-target extent ladder when no invocation spawn-errs:
it accepts the first rung satisfying `jpgHit` after invoking every rung before
it, and otherwise invokes every rung and exhausts. -/
theorem jpgLadder_spec (env : JpgEnv) :
    ∀ (l : List Nat) (cs : List JpgCall), (∀ p ∈ l, env.magickRung p ≠ .spawnErr) →
      jpgLadder env l cs =
        match l.find? (jpgHit env) with
        | some p => .accepted p (env.rungSize p)
            (cs ++ (l.takeWhile (fun q => ! jpgHit env q)).map JpgCall.magickRung ++
              [JpgCall.magickRung p])
        | none => .exhausted (cs ++ l.map JpgCall.magickRung) := by
  intro l
  induction l with
  | nil => intro cs _; simp [jpgLadder]
  | cons p rest ih =>
    intro cs hns
    have hp : env.magickRung p ≠ .spawnErr := hns p (List.mem_cons_self _ _)
    by_cases hhit : jpgHit env p = true
    · have hres : env.magickRung p = .exit true ∧
          env.rungSize p ≤ env.originalSize * p / 100 := by
        simpa [jpgHit] using hhit
      have hlhs : jpgLadder env (p :: rest) cs =
          .accepted p (env.rungSize p) (cs ++ [.magickRung p]) := by
        rw [jpgLadder, hres.1]
        simp only [if_pos hres.2]
      rw [hlhs]
      have hfd : (p :: rest).find? (jpgHit env) = some p := by
        simp [List.find?, hhit]
      rw [hfd]
      have htw : (p :: rest).takeWhile (fun q => ! jpgHit env q) = [] := by
        simp [List.takeWhile, hhit]
      rw [htw]
      simp
    · have hhit' : jpgHit env p = false := by simpa using hhit
      have hlhs : jpgLadder env (p :: rest) cs = jpgLadder env rest (cs ++ [.magickRung p]) := by
        rw [jpgLadder]
        cases hmr : env.magickRung p with
        | spawnErr => exact absurd hmr hp
        | exit ok =>
          cases ok with
          | false => rfl
          | true =>
            have hsz : ¬ env.rungSize p ≤ env.originalSize * p / 100 := by
              intro hle
              rw [jpgHit, hmr] at hhit'
              simp [hle] at hhit'
            rw [if_neg hsz]
      rw [hlhs, ih (cs ++ [JpgCall.magickRung p]) (fun q hq => hns q (List.mem_cons_of_mem _ hq))]
      have hfd : (p :: rest).find? (jpgHit env) = rest.find? (jpgHit env) := by
        simp [List.find?, hhit']
      have htw : (p :: rest).takeWhile (fun q => ! jpgHit env q) =
          p :: rest.takeWhile (fun q => ! jpgHit env q) := by
        simp [List.takeWhile, hhit']
      rw [hfd, htw]
      cases hfind : rest.find? (jpgHit env) with
      | some q => simp
      | none => simp

/-- C6: for the JPEG engine with no explicit target (and no invocation
spawn-erroring), the lossy rungs are attempted at exactly the fixed ascending
percentages 60..95 of the original size in order; the first rung whose clean
output size is at most its computed byte target `original * p / 100` is
accepted and no later rung is invoked; if no rung succeeds the output is a
copy of the original input. -/
theorem jpg_ladder_first_hit (env : JpgEnv)
    (hjo : env.jpegoptimRes ≠ .spawnErr)
    (hmr : ∀ p ∈ [60, 65, 70, 75, 80, 85, 90, 95], env.magickRung p ≠ Invoke.spawnErr) :
    (∀ p, [60, 65, 70, 75, 80, 85, 90, 95].find? (jpgHit env) = some p →
      (compress_jpg env none).result =
        .ok ("jpegoptim + magick (Standard Preset, target " ++
          toString (env.originalSize * p / 100) ++ " KB)") ∧
      (compress_jpg env none).output = some (.rungOut p) ∧
      (compress_jpg env none).calls = .jpegoptim ::
        (([60, 65, 70, 75, 80, 85, 90, 95].takeWhile fun q => ! jpgHit env q).map
          JpgCall.magickRung ++ [JpgCall.magickRung p])) ∧
    ([60, 65, 70, 75, 80, 85, 90, 95].find? (jpgHit env) = none →
      (compress_jpg env none).result = .ok "jpegoptim + magick (No reduction, original kept)" ∧
      (compress_jpg env none).output = some .originalCopy ∧
      (compress_jpg env none).calls =
        .jpegoptim :: [60, 65, 70, 75, 80, 85, 90, 95].map JpgCall.magickRung) := by
  have hl := jpgLadder_spec env [60, 65, 70, 75, 80, 85, 90, 95] [.jpegoptim] hmr
  constructor
  · intro p hp
    rw [hp] at hl
    simp only [compress_jpg]
    cases hjoe : env.jpegoptimRes with
    | spawnErr => exact absurd hjoe hjo
    | exit o =>
      rw [hl]
      exact ⟨rfl, rfl, by simp⟩
  · intro hp
    rw [hp] at hl
    simp only [compress_jpg]
    cases hjoe : env.jpegoptimRes with
    | spawnErr => exact absurd hjoe hjo
    | exit o =>
      rw [hl]
      exact ⟨rfl, rfl, by simp⟩

/-- Witness for C6 at `wJpgLadderEnv`: rungs 60 and 65 miss, rung 70 is the
first hit. -/
theorem jpg_ladder_first_hit_w :
    (compress_jpg wJpgLadderEnv none).result =
      .ok ("jpegoptim + magick (Standard Preset, target " ++
        toString (wJpgLadderEnv.originalSize * 70 / 100) ++ " KB)") ∧
    (compress_jpg wJpgLadderEnv none).output = some (.rungOut 70) := by
  have h := (jpg_ladder_first_hit wJpgLadderEnv (by decide) (by decide)).1 70 (by decide)
  exact ⟨h.1, h.2.1⟩

/-! ## Fallback consent claims -/

theorem jpgFbResize_prompts (env : JpgEnv) (t : Nat) (cur : JpgArtifact)
    (cs : List JpgCall) (ps : List String) :
    (jpgFbResize env t cur cs ps).prompts = ps ++ ["   Resize image dimensions to fit?"] := by
  simp only [jpgFbResize]
  by_cases hr : env.ansFbResize = true
  · rw [if_pos hr]
    cases h : jpgFbLoop env t 1 99 8 0 cur cs with
    | abort c2 cs2 => rfl
    | done best c2 cs2 =>
      dsimp only
      by_cases hb : 0 < best
      · rw [if_pos hb]
        cases env.fbFinalResizeRes with
        | spawnErr => rfl
        | exit s => rfl
      · rw [if_neg hb]
  · rw [if_neg hr]

/-- On every return path of the shared fallback, the grayscale consent prompt
was shown right after the prompts accumulated so far: the interactive gate is
consulted unconditionally. -/
theorem handle_fallback_prompts (env : JpgEnv) (t : Nat) (cs : List JpgCall)
    (ps : List String) :
    ∃ rest, (handle_fallback_options env t cs ps).prompts =
      ps ++ "   Convert to Grayscale (B&W) to save space?" :: rest := by
  simp only [handle_fallback_options]
  by_cases hg : env.ansFbGray = true
  · rw [if_pos hg]
    cases hgr : env.fbGrayRes with
    | spawnErr => exact ⟨[], by simp⟩
    | exit ok =>
      cases ok with
      | false =>
        exact ⟨["   Resize image dimensions to fit?"], by rw [jpgFbResize_prompts]; simp⟩
      | true =>
        by_cases hsz : env.fbGraySize ≤ t
        · rw [if_pos hsz]
          exact ⟨[], by simp⟩
        · rw [if_neg hsz]
          exact ⟨["   Resize image dimensions to fit?"], by rw [jpgFbResize_prompts]; simp⟩
  · rw [if_neg hg]
    exact ⟨["   Resize image dimensions to fit?"], by rw [jpgFbResize_prompts]; simp⟩

/-- C7 evidence: for a run with the non-interactive override set, once the
with-target JPEG path enters the shared fallback, the run still consults the
interactive gate: the grayscale consent prompt of handle_fallback_options is
shown despite auto-yes (its signature carries no auto-yes parameter at all),
contradicting both the claim and the documented `--yes` behavior. -/
theorem jpg_fallback_ignores_auto_yes (env : JpgEnv) (t : Nat)
    (hlt : t < env.originalSize) (hjo : env.jpegoptimRes = .exit true)
    (hopt : t < env.optimSize) (hme : env.magickExtent = .exit true)
    (hcur : t < env.extentOutSize) (_hauto : env.autoYes = true) :
    ∃ rest, (compress_jpg env (some t)).prompts =
      "   Convert to Grayscale (B&W) to save space?" :: rest := by
  have h1 : ¬ env.originalSize ≤ t := by omega
  simp only [compress_jpg, if_neg h1, hjo, hme]
  rw [if_neg (by simp; omega)]
  rw [if_neg (by omega)]
  obtain ⟨rest, hrest⟩ := handle_fallback_prompts env t [.jpegoptim, .magickExtent] []
  exact ⟨rest, by rw [hrest]; simp⟩

/-- Witness for the C7 evidence at `wJpgFbEnv` (auto-yes set, target 10 KB). -/
theorem jpg_fallback_ignores_auto_yes_w :
    ∃ rest, (compress_jpg wJpgFbEnv (some 10)).prompts =
      "   Convert to Grayscale (B&W) to save space?" :: rest :=
  jpg_fallback_ignores_auto_yes wJpgFbEnv 10 (by decide) (by decide) (by decide)
    (by decide) (by decide) (by decide)

/-! ## Unreachable-target outcome claims -/

/-- C8 counterexample: with target 10 KB, a 100 KB PNG whose waterfall
exhausts every stage, consent to resize but refusal of the save-smallest
prompt ends in a success result with no output written at all, instead of the
claimed user-cancellation error. -/
theorem png_resize_refusal_silent_success_cex :
    cexPngRefuseEnv.autoYes = false ∧ cexPngRefuseEnv.ansSaveSmallest = false ∧
    (compress_png cexPngRefuseEnv (some 10)).result = .ok "Hybrid Chain" ∧
    (compress_png cexPngRefuseEnv (some 10)).output = none := by decide

/-- C8 (amended): when a target is structurally unreachable, the PDF engine
saves the floor artifact and returns success on consent or auto-yes and
returns the cancellation error on refusal; the PNG engine (waterfall
exhausted, resize search found no scale) copies the last resize attempt and
returns success on consent or auto-yes, but on refusal it also returns
success, writing no output, instead of an error. -/
theorem unreachable_target_outcomes :
    (∀ (env : PdfEnv) (t : Nat), t < env.originalSize → env.screenOk = true →
      t < env.screenSize →
      ((env.autoYes || env.ansSaveFloor) = true →
        (compress_pdf env (some t)).result = .ok "Floor (Min Quality)" ∧
        (compress_pdf env (some t)).output = some .screenFloor) ∧
      ((env.autoYes || env.ansSaveFloor) = false →
        (compress_pdf env (some t)).result = .err "Compression cancelled." ∧
        (compress_pdf env (some t)).output = none)) ∧
    (∀ (env : PngEnv) (t : Nat) (pq : Option (Nat × Nat)) (rsz : Option Nat),
      t < env.originalSize → env.oxiRes = .exit true → t < env.oxiSize →
      pngQuantEngineLoop env t 30 100 8 none none = .done none pq →
      env.grayRes = .exit true → t < env.graySize → env.oxiSize ≤ env.graySize →
      (env.autoYes || env.ansResize) = true →
      pngResizeEngineLoop env false t 1 100 8 none none = .done none rsz →
      ((env.autoYes || env.ansSaveSmallest) = true →
        ∀ w, rsz = some w →
          (compress_png env (some t)).result = .ok "Hybrid Chain" ∧
          (compress_png env (some t)).output = some (.resizeCopy w)) ∧
      (env.autoYes = false → env.ansSaveSmallest = false →
        (compress_png env (some t)).result = .ok "Hybrid Chain" ∧
        (compress_png env (some t)).output = none)) := by
  constructor
  · intro env t hlt hok hgt
    have h1 : ¬ env.originalSize ≤ t := by omega
    have h2 : env.screenOk = true ∧ t < (if env.screenOk then env.screenSize else 0) := by
      rw [hok]
      simpa using hgt
    simp only [compress_pdf, if_neg h1, if_pos h2]
    exact ⟨fun hy => by simp [hy], fun hn => by simp [hn]⟩
  · intro env t pq rsz hlt hox hoxsz hquant hgray hgsz hge hdo hrsz
    have e1 : compress_png env (some t) = pngResizeStage env t false
        (if env.autoYes then [] else ["Target unreachable. Resize image dimensions?"])
        ⟨true, pq, true, none⟩ := by
      simp [compress_png, pngAfterStrip, pngAfterQuant, pngBranchB, hox, hquant, hgray,
        Nat.not_le.mpr hlt, Nat.not_le.mpr hoxsz, Nat.not_le.mpr hgsz, Nat.not_lt.mpr hge, hdo]
    constructor
    · intro hy w hw
      rw [e1]
      simp [pngResizeStage, hrsz, hy, hw]
    · intro ha hs
      rw [e1]
      simp [pngResizeStage, hrsz, ha, hs]

/-- Witness for the amended C8: PDF floor save with auto-yes, and the PNG
refusal run of `cexPngRefuseEnv`. -/
theorem unreachable_target_outcomes_w :
    (compress_pdf wPdfFloorEnv (some 400)).result = .ok "Floor (Min Quality)" ∧
    (compress_png cexPngRefuseEnv (some 10)).result = .ok "Hybrid Chain" ∧
    (compress_png cexPngRefuseEnv (some 10)).output = none := by
  have hpdf := (unreachable_target_outcomes.1 wPdfFloorEnv 400 (by decide) (by decide)
    (by decide)).1 (by decide)
  have hpng := (unreachable_target_outcomes.2 cexPngRefuseEnv 10 (some (30, 30)) (some 1)
    (by decide) (by decide) (by decide) (by decide) (by decide) (by decide) (by decide)
    (by decide) (by decide)).2 (by decide) (by decide)
  exact ⟨hpdf.1, hpng.1, hpng.2⟩

/-! ## Temp-file cleanup claims -/

/-- C9 counterexample: when the first pngquant invocation is a spawn error,
the `?` operator propagates the error out of the waterfall and the oxipng
temp file is left on disk, so not every return path removes the temp files. -/
theorem png_error_return_leaks_temp_cex :
    (compress_png cexPngLeakEnv (some 10)).result = .err "spawn error" ∧
    (compress_png cexPngLeakEnv (some 10)).fs.oxi = true := by decide

theorem pngResizeStage_ok_clean (env : PngEnv) (t : Nat) (bg : Bool)
    (ps : List String) (fs : PngFS) :
    ∀ alg, (pngResizeStage env t bg ps fs).result = .ok alg →
      (pngResizeStage env t bg ps fs).fs = ⟨false, none, false, none⟩ := by
  intro alg
  cases hl : pngResizeEngineLoop env bg t 1 100 8 none none with
  | abort rsz => simp [pngResizeStage, hl]
  | done best rsz =>
    cases best with
    | some b =>
      cases rsz with
      | none => simp [pngResizeStage, hl]
      | some w => simp [pngResizeStage, hl]
    | none =>
      cases hs : (env.autoYes || env.ansSaveSmallest) with
      | true =>
        cases rsz with
        | none => simp [pngResizeStage, hl, hs]
        | some w => simp [pngResizeStage, hl, hs]
      | false => simp [pngResizeStage, hl, hs]

theorem pngBestEffortColor_ok_clean (ps : List String) (fs : PngFS) (alg0 : String)
    (h : fs.rsz = none) :
    ∀ alg, (pngBestEffortColor ps fs alg0).result = .ok alg →
      (pngBestEffortColor ps fs alg0).fs = ⟨false, none, false, none⟩ := by
  intro alg
  cases hp : fs.pq with
  | none => simp [pngBestEffortColor, hp]
  | some pc => simp [pngBestEffortColor, hp, h]

theorem pngBranchB_ok_clean (env : PngEnv) (t a b : Nat) (ps : List String)
    (fs : PngFS) (h : fs.rsz = none) :
    ∀ alg, (pngBranchB env t a b ps fs).result = .ok alg →
      (pngBranchB env t a b ps fs).fs = ⟨false, none, false, none⟩ := by
  intro alg hok
  simp only [pngBranchB] at hok ⊢
  split_ifs at hok ⊢ <;>
    first
      | exact pngResizeStage_ok_clean env t true _ fs alg hok
      | exact pngResizeStage_ok_clean env t false _ fs alg hok
      | exact pngBestEffortColor_ok_clean _ fs _ h alg hok

theorem pngAfterQuant_ok_clean (env : PngEnv) (t a : Nat) (fs : PngFS)
    (h : fs.rsz = none) :
    ∀ alg, (pngAfterQuant env t a fs).result = .ok alg →
      (pngAfterQuant env t a fs).fs = ⟨false, none, false, none⟩ := by
  intro alg
  cases hg : env.grayRes with
  | spawnErr => simp [pngAfterQuant, hg]
  | exit gOk =>
    cases gOk with
    | false =>
      cases hacc : (env.autoYes || env.ansGrayAccept) with
      | true => simp [pngAfterQuant, hg, hacc]
      | false =>
        have hb := pngBranchB_ok_clean env t a 0
          (if env.autoYes = true then []
            else ["Target reached by converting to Grayscale. Proceed?"])
          { fs with gray := false } (by simpa using h) alg
        suffices hred : pngAfterQuant env t a fs = pngBranchB env t a 0
            (if env.autoYes = true then []
              else ["Target reached by converting to Grayscale. Proceed?"])
            { fs with gray := false } by
          rw [hred]
          exact hb
        simp [pngAfterQuant, hg, hacc]
    | true =>
      by_cases hsz : env.graySize ≤ t
      · cases hacc : (env.autoYes || env.ansGrayAccept) with
        | true => simp [pngAfterQuant, hg, hsz, hacc, h]
        | false =>
          have hb := pngBranchB_ok_clean env t a env.graySize
            (if env.autoYes = true then []
              else ["Target reached by converting to Grayscale. Proceed?"])
            { fs with gray := true } (by simpa using h) alg
          suffices hred : pngAfterQuant env t a fs = pngBranchB env t a env.graySize
              (if env.autoYes = true then []
                else ["Target reached by converting to Grayscale. Proceed?"])
              { fs with gray := true } by
            rw [hred]
            exact hb
          simp [pngAfterQuant, hg, hsz, hacc]
      · have hb := pngBranchB_ok_clean env t a env.graySize []
          { fs with gray := true } (by simpa using h) alg
        suffices hred : pngAfterQuant env t a fs =
            pngBranchB env t a env.graySize [] { fs with gray := true } by
          rw [hred]
          exact hb
        simp [pngAfterQuant, hg, hsz]

/-- C9 (amended): on every return path of the PNG waterfall that ends in a
success result, every temp file the run created has been removed (each final
output is a copy, so all four temp paths are gone); on error returns
propagated by `?` (spawn failures, failed copies) temp files can remain, as
the counterexample shows. -/
theorem png_success_paths_clean (env : PngEnv) (targetKb : Option Nat) :
    ∀ alg, (compress_png env targetKb).result = .ok alg →
      (compress_png env targetKb).fs = ⟨false, none, false, none⟩ := by
  intro alg
  cases targetKb with
  | none =>
    cases hox : env.oxiRes with
    | spawnErr => simp [compress_png, pngAfterStrip, hox]
    | exit oxOk =>
      cases oxOk with
      | true => simp [compress_png, pngAfterStrip, hox]
      | false => simp [compress_png, pngAfterStrip, hox]
  | some t =>
    by_cases h1 : env.originalSize ≤ t
    · cases hk : (env.autoYes || env.ansKeepOriginal) with
      | true => simp [compress_png, h1, hk]
      | false => simp [compress_png, h1, hk]
    · cases hox : env.oxiRes with
      | spawnErr => simp [compress_png, pngAfterStrip, h1, hox]
      | exit oxOk =>
        cases oxOk with
        | false => simp [compress_png, pngAfterStrip, h1, hox]
        | true =>
          by_cases h2 : env.oxiSize ≤ t
          · simp [compress_png, pngAfterStrip, h1, hox, h2]
          · cases hq : pngQuantEngineLoop env t 30 100 8 none none with
            | abort pq => simp [compress_png, pngAfterStrip, h1, hox, h2, hq]
            | done best pq =>
              cases best with
              | some b =>
                cases pq with
                | none => simp [compress_png, pngAfterStrip, h1, hox, h2, hq]
                | some pc => simp [compress_png, pngAfterStrip, h1, hox, h2, hq]
              | none =>
                have hclean := pngAfterQuant_ok_clean env t env.oxiSize
                  ⟨true, pq, false, none⟩ rfl alg
                suffices hred : compress_png env (some t) =
                    pngAfterQuant env t env.oxiSize ⟨true, pq, false, none⟩ by
                  rw [hred]
                  exact hclean
                simp [compress_png, pngAfterStrip, h1, hox, h2, hq]

/-- Witness for the amended C9: the lossless no-target run of
`cexPngRefuseEnv` succeeds and leaves no temp file. -/
theorem png_success_paths_clean_w :
    (compress_png cexPngRefuseEnv none).fs = ⟨false, none, false, none⟩ :=
  png_success_paths_clean cexPngRefuseEnv none "oxipng (Lossless)" (by decide)

end Crnch
